import Mathlib

/-!
Verification of the lead-personalisation pipeline (`src/main.py`).

The Python program is shallowly embedded: the Google-Sheets worksheet is a
`List (List String)` (first element = header row, rest = data rows), the
remote review stream is the list of raw dataset items the Apify client would
iterate, and the text-generation backend is represented by the prompt the
code would send to it (so "no model call" is observable as a constructor).
Fallible code returns `Except`.
-/

set_option autoImplicit false

deriving instance DecidableEq for Except

/-- `Lead` (pydantic model, `main.py` lines 22-33): every field optional. -/
structure Lead where
  id : Option String := none
  business : Option String := none
  website : Option String := none
  email : Option String := none
  phone : Option String := none
  instagram : Option String := none
  facebook : Option String := none
  linkedin : Option String := none
  address : Option String := none
  owner_name : Option String := none
  review_summary : Option String := none
deriving DecidableEq, Repr

/-- `LeadPersonalization` (`main.py` lines 36-43). -/
structure LeadPersonalization where
  id : String
  name : String
  owner : String
  dm_opener : String
  call_script : Option String := none
  email_opener : Option String := none
  notes : Option String := none
deriving DecidableEq, Repr

/-- `Review` (`main.py` lines 55-58): all fields optional. -/
structure Review where
  title : Option String := none
  name : Option String := none
  text : Option String := none
deriving DecidableEq, Repr

/-- `ReviewSummary` (`main.py` lines 50-52). -/
structure ReviewSummary where
  owner_name : String
  review_summary : String
deriving DecidableEq, Repr

/-! ## Review fetching (`ReviewFetcher.fetch_reviews`, lines 94-125) -/

/-- A raw item of the Apify dataset stream (`item.get("title", "")` etc.). -/
structure RawItem where
  title : Option String := none
  name : Option String := none
  text : Option String := none
deriving DecidableEq, Repr

/-- Lines 110-114: `Review(title=item.get("title",""), ...)` — absent raw
fields become `""`. -/
def itemToReview (item : RawItem) : Review :=
  { title := some (item.title.getD "")
    name := some (item.name.getD "")
    text := some (item.text.getD "") }

/-- The `run_input` dict sent to the remote actor (lines 100-104). Its
presence in a successful result records that the remote call happened; the
error branch of `fetch_reviews` returns before it is built. -/
structure ReviewsRunInput where
  placeIds : List String
  maxReviews : Nat
  language : String
deriving DecidableEq, Repr

/-- `ValueError("place_ids cannot be empty")`, line 96. -/
inductive FetchError where
  | invalidArgument
deriving DecidableEq, Repr

/-- `ReviewFetcher.fetch_reviews` (lines 94-125). `items` stands for the
flat dataset stream the client iterates; the per-place partition is purely
positional: place `i` receives `all_reviews[i*max_reviews : (i+1)*max_reviews]`
(lines 117-125, slice = drop then take). -/
def fetch_reviews (placeIds : List String) (maxReviews : Nat) (language : String)
    (items : List RawItem) : Except FetchError (ReviewsRunInput × List (List Review)) :=
  if placeIds.isEmpty then
    .error .invalidArgument
  else
    let allReviews := items.map itemToReview
    let results := (List.range placeIds.length).map
      (fun i => (allReviews.drop (i * maxReviews)).take maxReviews)
    .ok (⟨placeIds, maxReviews, language⟩, results)

/-! ## Sheet reading (`SheetsManager.read_leads`, lines 143-167) -/

/-- Python `str.lower()`: character-wise lowercasing. (Extensionally this is
`String.toLower`; it is spelled out on `String.data` so that the kernel can
evaluate it on concrete headers.) -/
def lowerStr (s : String) : String :=
  ⟨s.data.map Char.toLower⟩

/-- Line 159-163: the row dict maps `headers[i].lower()` to `row[i]`
(missing cells become `""`, a later duplicate header overwrites an earlier
one, empty strings become `None`). `cellValue` looks a single Lead field up
in that dict. -/
def cellValue (headers row : List String) (field : String) : Option String :=
  let pairs := headers.enum.map (fun p => (lowerStr p.2, row.getD p.1 ""))
  match pairs.reverse.lookup field with
  | none => none
  | some v => if v = "" then none else some v

/-- `Lead(**row_dict)` for one data row (lines 158-164). -/
def rowToLead (headers row : List String) : Lead :=
  { id := cellValue headers row "id"
    business := cellValue headers row "business"
    website := cellValue headers row "website"
    email := cellValue headers row "email"
    phone := cellValue headers row "phone"
    instagram := cellValue headers row "instagram"
    facebook := cellValue headers row "facebook"
    linkedin := cellValue headers row "linkedin"
    address := cellValue headers row "address"
    owner_name := cellValue headers row "owner_name"
    review_summary := cellValue headers row "review_summary" }

/-- `SheetsManager.read_leads` (lines 143-167): empty worksheet yields `[]`
(line 150-152), otherwise the first row is the header and every later row
becomes a `Lead`. -/
def read_leads (allValues : List (List String)) : List Lead :=
  if allValues.isEmpty then []
  else allValues.tail.map (rowToLead (allValues.headD []))

/-! ## Upsert (`SheetsManager.write_personalization`, lines 169-216) -/

/-- The header row created when the output worksheet is empty
(lines 178-186). -/
def defaultHeaders : List String :=
  ["ID", "Name", "Owner", "DM opener", "Call Script", "Email Opener", "Notes"]

/-- Line 192: `next((i for i, h in enumerate(headers) if h.lower() == "id"), 0)`. -/
def findHeaderIdx : List String → Option Nat
  | [] => none
  | h :: rest => if lowerStr h = "id" then some 0 else (findHeaderIdx rest).map (· + 1)

/-- Index of the identifier column: first header lowercasing to `"id"`,
defaulting to `0`. -/
def idColOf (headers : List String) : Nat :=
  (findHeaderIdx headers).getD 0

/-- Lines 194-198: scan the data rows for the first one whose
identifier-column cell equals the record's id (the Python guard
`row and len(row) > id_col and row[id_col] == id` is exactly
`row[id_col]? = some id`). Returns the 0-based data-row index. -/
def findExistingRow (idCol : Nat) (pid : String) : List (List String) → Option Nat
  | [] => none
  | row :: rest =>
    if row[idCol]? == some pid then some 0
    else (findExistingRow idCol pid rest).map (· + 1)

/-- The values written for a record (lines 200-208): optional columns
become `""`. -/
def rowData (p : LeadPersonalization) : List String :=
  [p.id, p.name, p.owner, p.dm_opener, p.call_script.getD "",
   p.email_opener.getD "", p.notes.getD ""]

/-- `SheetsManager.write_personalization` (lines 169-216) as a function on
the worksheet value grid. Empty worksheet: the header row is appended first
(lines 177-189). Then the id column is located, the data rows are scanned
for an existing row, and either the found row's first seven cells are
overwritten in place (`update_cell` for columns 1..7, lines 210-213) or a
new row is appended (line 215). -/
def write_personalization (t : List (List String)) (p : LeadPersonalization) :
    List (List String) :=
  let allValues := if t.isEmpty then [defaultHeaders] else t
  let headers := allValues.headD []
  let idCol := idColOf headers
  let rows := allValues.tail
  match findExistingRow idCol p.id rows with
  | some k => headers :: rows.set k (rowData p ++ (rows.getD k []).drop 7)
  | none => headers :: (rows ++ [rowData p])

/-- Header row of the worksheet as `write_personalization` sees it (the
created `defaultHeaders` when the sheet is empty). -/
def effHeaders (t : List (List String)) : List String :=
  if t.isEmpty then defaultHeaders else t.headD []

/-- Data rows of the worksheet (everything after the header row). -/
def dataRows (t : List (List String)) : List (List String) :=
  t.tail

/-- Data rows whose identifier-column cell equals `i`. -/
def matchingRows (idCol : Nat) (i : String) (rows : List (List String)) :
    List (List String) :=
  rows.filter (fun r => r[idCol]? == some i)

/-- Number of data rows carrying identifier `i`. -/
def countMatches (idCol : Nat) (i : String) (rows : List (List String)) : Nat :=
  (matchingRows idCol i rows).length

/-- Recursive restatement of the scan-then-update-or-append body of
`write_personalization`, used to structure the proofs by induction. -/
def upsertLoop (idCol : Nat) (p : LeadPersonalization) :
    List (List String) → List (List String)
  | [] => [rowData p]
  | r :: rs =>
    if r[idCol]? == some p.id then (rowData p ++ r.drop 7) :: rs
    else r :: upsertLoop idCol p rs

/-! ## Summarisation (`AIAgentManager.summarize_reviews`, lines 245-265) -/

/-- Outcome of `summarize_reviews`: either the sentinel insight returned
without touching the model (lines 256-258), or a call to the generation
backend with the prompt the code builds (lines 260-263). -/
inductive SummarizeOutcome where
  | sentinel (s : ReviewSummary)
  | modelCall (prompt : String)
deriving DecidableEq, Repr

/-- One numbered snippet (line 252-254): skipped when the review's text is
empty or absent (`review.text or ""` and the truthiness test), otherwise
numbered by the review's 1-based position in the truncated list. -/
def snippetOf (q : Nat × Review) : Option String :=
  let t := q.2.text.getD ""
  if t = "" then none
  else some ("Review " ++ toString (q.1 + 1) ++ ": " ++ t)

/-- Lines 250-254: numbered snippets of the (already truncated) review
list, skipping entries whose text is empty or absent. -/
def reviewSnippets (firstFive : List Review) : List String :=
  firstFive.enum.filterMap snippetOf

/-- `AIAgentManager.summarize_reviews` (lines 245-265): truncate to the
first five reviews (line 248), build non-empty snippets, short-circuit to
the sentinel when none remain, otherwise call the model with the assembled
prompt (lines 260-263). -/
def summarize_reviews (reviews : List Review) (businessName : String) :
    SummarizeOutcome :=
  let firstFive := reviews.take 5
  let reviewTexts := reviewSnippets firstFive
  if reviewTexts.isEmpty then
    .sentinel ⟨"Unknown", "No reviews available"⟩
  else
    .modelCall ("Business: " ++ businessName ++ "\n\nReviews:\n" ++
      String.intercalate "\n\n" reviewTexts)

/-! ## Pipeline (`LeadProcessor.process_multiple_leads`, lines 356-370) -/

/-- `ValueError("No leads found in Google Sheets")`, line 363. -/
inductive PipelineError where
  | noLeadsFound
deriving DecidableEq, Repr

/-- `LeadProcessor.process_multiple_leads` (lines 356-370) at the level of
the work queue: read the leads, fail when there are none, otherwise process
`leads[:max_leads]` in order. The returned list is the exact sequence of
leads handed to `process_lead`, in order. -/
def process_multiple_leads (allValues : List (List String)) (maxLeads : Nat) :
    Except PipelineError (List Lead) :=
  let leads := read_leads allValues
  if leads.isEmpty then .error .noLeadsFound
  else .ok (leads.take maxLeads)

/-- The default of the `max_leads` parameter (line 356: `max_leads: int = 5`). -/
def defaultMaxLeads : Nat := 5

/-- A run with the declared default cap. `main` (line 390) likewise invokes
the pipeline with `max_leads=5`. -/
def process_multiple_leads_default (allValues : List (List String)) :
    Except PipelineError (List Lead) :=
  process_multiple_leads allValues defaultMaxLeads

/-- The spec's dedup filter, written from the spec's words for comparison
with the code: the work queue it prescribes is
`{l in L : l.id != null and l.id not in P}` in `L`'s order. -/
def specWorkQueue (leads : List Lead) (processed : List String) : List Lead :=
  leads.filter (fun l => l.id.isSome && !(processed.contains (l.id.getD "")))

/-! ## Upsert infrastructure lemmas -/

theorem rowData_length (p : LeadPersonalization) : (rowData p).length = 7 := rfl

theorem rowData_zero (p : LeadPersonalization) : (rowData p)[0]? = some p.id := rfl

theorem rowData_append_zero (p : LeadPersonalization) (s : List String) :
    (rowData p ++ s)[0]? = some p.id := rfl

theorem matchingRows_cons (c : Nat) (i : String) (r : List String)
    (rs : List (List String)) :
    matchingRows c i (r :: rs)
      = if r[c]? = some i then r :: matchingRows c i rs else matchingRows c i rs := by
  simp [matchingRows, List.filter_cons]

/-- The `find existing row / update or append` body of
`write_personalization` is the recursive `upsertLoop`. -/
theorem scan_eq_upsertLoop (c : Nat) (p : LeadPersonalization) :
    ∀ rows : List (List String),
      (match findExistingRow c p.id rows with
       | some k => rows.set k (rowData p ++ (rows.getD k []).drop 7)
       | none => rows ++ [rowData p]) = upsertLoop c p rows
  | [] => by simp [findExistingRow, upsertLoop]
  | r :: rs => by
    have ih := scan_eq_upsertLoop c p rs
    by_cases h : r[c]? = some p.id
    · simp [findExistingRow, upsertLoop, h, List.getD]
    · have hb : (r[c]? == some p.id) = false := by simp [h]
      simp only [findExistingRow, upsertLoop, hb, Bool.false_eq_true, if_false]
      cases hf : findExistingRow c p.id rs with
      | none =>
        rw [hf] at ih
        simp only [Option.map_none', List.cons_append]
        exact congrArg (r :: ·) ih
      | some k =>
        rw [hf] at ih
        simp only [Option.map_some', List.set_cons_succ, List.getD_cons_succ]
        exact congrArg (r :: ·) ih

theorem write_personalization_eq (t : List (List String)) (p : LeadPersonalization) :
    write_personalization t p
      = effHeaders t :: upsertLoop (idColOf (effHeaders t)) p (dataRows t) := by
  cases t with
  | nil =>
    simp [write_personalization, effHeaders, dataRows, upsertLoop, findExistingRow]
  | cons h rs =>
    have hsc := scan_eq_upsertLoop (idColOf h) p rs
    simp only [write_personalization, effHeaders, dataRows, List.isEmpty_cons,
      List.headD_cons, List.tail_cons, Bool.false_eq_true, if_false]
    cases hf : findExistingRow (idColOf h) p.id rs with
    | none => rw [hf] at hsc; exact congrArg (h :: ·) hsc
    | some k => rw [hf] at hsc; exact congrArg (h :: ·) hsc

theorem dataRows_write (t : List (List String)) (p : LeadPersonalization) :
    dataRows (write_personalization t p)
      = upsertLoop (idColOf (effHeaders t)) p (dataRows t) := by
  rw [write_personalization_eq]; rfl

theorem effHeaders_write (t : List (List String)) (p : LeadPersonalization) :
    effHeaders (write_personalization t p) = effHeaders t := by
  rw [write_personalization_eq]; simp [effHeaders]

/-- After an upsert at column 0, the rows carrying the upserted identifier
are exactly one: the written row (its first seven cells are `rowData p`),
provided at most one such row existed before. -/
theorem matchingRows_upsertLoop_self (p : LeadPersonalization) (i : String)
    (hp : p.id = i) :
    ∀ rows : List (List String), countMatches 0 i rows ≤ 1 →
      ∃ s, matchingRows 0 i (upsertLoop 0 p rows) = [rowData p ++ s]
  | [], _ => ⟨[], by
      simp [upsertLoop, matchingRows, List.filter_cons, hp ▸ rowData_zero p]⟩
  | r :: rs, hc => by
    by_cases h : r[0]? = some p.id
    · have hb : (r[0]? == some p.id) = true := by simp [h]
      have hcount : matchingRows 0 i rs = [] := by
        have h1 : countMatches 0 i (r :: rs) = (matchingRows 0 i rs).length + 1 := by
          simp [countMatches, matchingRows_cons, hp ▸ h]
        have h2 : (matchingRows 0 i rs).length = 0 := by omega
        exact List.length_eq_zero.mp h2
      refine ⟨r.drop 7, ?_⟩
      simp only [upsertLoop, hb, if_true]
      rw [matchingRows_cons, if_pos (by rw [rowData_append_zero, hp]), hcount]
    · have hb : (r[0]? == some p.id) = false := by simp [h]
      have hr : ¬ r[0]? = some i := hp ▸ h
      have hc' : countMatches 0 i rs ≤ 1 := by
        have : countMatches 0 i (r :: rs) = countMatches 0 i rs := by
          simp [countMatches, matchingRows_cons, hr]
        omega
      obtain ⟨s, hs⟩ := matchingRows_upsertLoop_self p i hp rs hc'
      refine ⟨s, ?_⟩
      simp only [upsertLoop, hb, Bool.false_eq_true, if_false,
        matchingRows_cons, if_neg hr, hs]

/-- An upsert at column 0 never changes the set of rows carrying any other
identifier. -/
theorem matchingRows_upsertLoop_other (p : LeadPersonalization) (j : String)
    (hj : ¬ j = p.id) :
    ∀ rows : List (List String),
      matchingRows 0 j (upsertLoop 0 p rows) = matchingRows 0 j rows
  | [] => by
    have hpj : ¬ p.id = j := fun hx => hj hx.symm
    have hnew : ¬ (rowData p)[0]? = some j := by simp [rowData_zero, hpj]
    simp [upsertLoop, matchingRows, List.filter_cons, hnew]
  | r :: rs => by
    have ih := matchingRows_upsertLoop_other p j hj rs
    by_cases h : r[0]? = some p.id
    · have hpj : ¬ p.id = j := fun hx => hj hx.symm
      have hb : (r[0]? == some p.id) = true := by simp [h]
      have hnew : ¬ (rowData p ++ r.drop 7)[0]? = some j := by
        simp [rowData_append_zero, hpj]
      have hold : ¬ r[0]? = some j := by rw [h]; simp [hpj]
      simp [upsertLoop, hb, matchingRows_cons, hnew, hold]
    · have hb : (r[0]? == some p.id) = false := by simp [h]
      simp only [upsertLoop, hb, Bool.false_eq_true, if_false, matchingRows_cons, ih]

/-- Dichotomy of the upsert body: either no data row matched and the new
row is appended, or the first matching row is overwritten in place. -/
theorem upsertLoop_cases (c : Nat) (p : LeadPersonalization) :
    ∀ rows : List (List String),
      (upsertLoop c p rows = rows ++ [rowData p]
        ∧ ∀ r ∈ rows, ¬ r[c]? = some p.id)
      ∨ (∃ k r, rows[k]? = some r ∧ r[c]? = some p.id
          ∧ upsertLoop c p rows = rows.set k (rowData p ++ r.drop 7))
  | [] => Or.inl ⟨rfl, by simp⟩
  | r :: rs => by
    by_cases h : r[c]? = some p.id
    · exact Or.inr ⟨0, r, by simp, h, by simp [upsertLoop, h]⟩
    · have hb : (r[c]? == some p.id) = false := by simp [h]
      cases upsertLoop_cases c p rs with
      | inl hcase =>
        refine Or.inl ⟨?_, ?_⟩
        · simp only [upsertLoop, hb, Bool.false_eq_true, if_false,
            hcase.1, List.cons_append]
        · intro r' hr'
          rcases List.mem_cons.mp hr' with rfl | hmem
          · exact h
          · exact hcase.2 r' hmem
      | inr hcase =>
        obtain ⟨k, r0, hget, hmatch, heq⟩ := hcase
        refine Or.inr ⟨k + 1, r0, by simpa using hget, hmatch, ?_⟩
        simp only [upsertLoop, hb, Bool.false_eq_true, if_false, heq,
          List.set_cons_succ]

/-! ## Claim theorems: upsert (C3, C4, C10) -/

/-- C3: for every identifier `i` and payloads `p1`, `p2` both carrying `i`,
upserting `p1` and then `p2` into an output table whose identifier column is
the first column and which holds at most one row for `i` leaves exactly one
data row for `i`, and that row's (seven) payload cells are `p2`'s values. -/
theorem upsert_twice_single_row (t : List (List String)) (i : String)
    (p1 p2 : LeadPersonalization)
    (h1 : p1.id = i) (h2 : p2.id = i)
    (hc : idColOf (effHeaders t) = 0)
    (hinv : countMatches 0 i (dataRows t) ≤ 1) :
    ∃ s, matchingRows 0 i
        (dataRows (write_personalization (write_personalization t p1) p2))
        = [rowData p2 ++ s]
      ∧ (rowData p2 ++ s).take 7 = rowData p2 := by
  have hc1 : idColOf (effHeaders (write_personalization t p1)) = 0 := by
    rw [effHeaders_write]; exact hc
  have hd1 : dataRows (write_personalization t p1)
      = upsertLoop 0 p1 (dataRows t) := by
    rw [dataRows_write, hc]
  obtain ⟨s1, hs1⟩ := matchingRows_upsertLoop_self p1 i h1 (dataRows t) hinv
  have hinv1 : countMatches 0 i (dataRows (write_personalization t p1)) ≤ 1 := by
    rw [countMatches, hd1, hs1]; simp
  obtain ⟨s2, hs2⟩ :=
    matchingRows_upsertLoop_self p2 i h2
      (dataRows (write_personalization t p1)) hinv1
  refine ⟨s2, ?_, List.take_left' (rowData_length p2)⟩
  rw [dataRows_write, hc1]
  exact hs2

/-- Witness for C3 at a concrete table and payload pair. -/
theorem upsert_twice_single_row_witness :
    ∃ s, matchingRows 0 "A"
        (dataRows (write_personalization
          (write_personalization [] ⟨"A", "n1", "o1", "d1", none, none, none⟩)
          ⟨"A", "n2", "o2", "d2", some "c", none, some "x"⟩))
        = [rowData ⟨"A", "n2", "o2", "d2", some "c", none, some "x"⟩ ++ s]
      ∧ (rowData ⟨"A", "n2", "o2", "d2", some "c", none, some "x"⟩ ++ s).take 7
        = rowData ⟨"A", "n2", "o2", "d2", some "c", none, some "x"⟩ :=
  upsert_twice_single_row [] "A" _ _ rfl rfl (by decide) (by decide)

/-- C4 (amended): for an output table whose identifier column resolves to
the first column, a single upsert preserves "at most one data row per
identifier". (The unrestricted claim fails, see the counterexample.) -/
theorem upsert_preserves_unique_rows (t : List (List String))
    (p : LeadPersonalization)
    (hc : idColOf (effHeaders t) = 0)
    (hinv : ∀ i, countMatches 0 i (dataRows t) ≤ 1) :
    ∀ i, countMatches 0 i (dataRows (write_personalization t p)) ≤ 1 := by
  intro i
  rw [countMatches, dataRows_write, hc]
  by_cases hip : i = p.id
  · subst hip
    obtain ⟨s, hs⟩ :=
      matchingRows_upsertLoop_self p p.id rfl (dataRows t) (hinv p.id)
    rw [hs]; simp
  · rw [matchingRows_upsertLoop_other p i (fun hx => hip hx) (dataRows t)]
    exact hinv i

/-- Witness for C4's amended statement at a concrete table. -/
theorem upsert_preserves_unique_rows_witness :
    countMatches 0 "A"
      (dataRows (write_personalization [["ID"], ["B", "bb"]]
        ⟨"A", "n", "o", "d", none, none, none⟩)) ≤ 1 :=
  upsert_preserves_unique_rows [["ID"], ["B", "bb"]]
    ⟨"A", "n", "o", "d", none, none, none⟩ (by decide)
    (fun i => by
      have h := List.length_filter_le (fun r => r[0]? == some i)
        (dataRows [["ID"], ["B", "bb"]])
      simp only [countMatches, matchingRows]
      exact le_trans h (by decide)) "A"

/-- C4 counterexample: the claim quantifies over every table state, but on
a table whose header locates the identifier column at index 1 (header row
`["X", "id"]`), the upsert appends a row carrying the record's id in cell 0,
so a second data row with identifier-column value `"Alice"` appears even
though the table held at most one data row per identifier before. -/
theorem upsert_unique_invariant_cex :
    (dataRows [["X", "id"], ["a", "Alice"]]).length = 1
    ∧ countMatches (idColOf (effHeaders [["X", "id"], ["a", "Alice"]])) "Alice"
        (dataRows [["X", "id"], ["a", "Alice"]]) = 1
    ∧ countMatches
        (idColOf (effHeaders (write_personalization [["X", "id"], ["a", "Alice"]]
          ⟨"z", "Alice", "o", "d", none, none, none⟩)))
        "Alice"
        (dataRows (write_personalization [["X", "id"], ["a", "Alice"]]
          ⟨"z", "Alice", "o", "d", none, none, none⟩)) = 2 := by
  refine ⟨rfl, ?_, ?_⟩ <;> decide

/-- C10: one upsert call deletes no data row, appends at most one data row
(and only when no row carries the record's identifier), leaves every data
row whose identifier-column cell differs from the record's identifier
unchanged in place, and modifies at most one existing data row. -/
theorem upsert_frame_spec (t : List (List String)) (p : LeadPersonalization) :
    ((dataRows t).length ≤ (dataRows (write_personalization t p)).length)
    ∧ ((dataRows (write_personalization t p)).length ≤ (dataRows t).length + 1)
    ∧ (∀ (k : Nat) (r : List String), (dataRows t)[k]? = some r →
        ¬ r[idColOf (effHeaders t)]? = some p.id →
        (dataRows (write_personalization t p))[k]? = some r)
    ∧ ((dataRows (write_personalization t p)).length = (dataRows t).length + 1 →
        dataRows (write_personalization t p) = dataRows t ++ [rowData p]
        ∧ ∀ r ∈ dataRows t, ¬ r[idColOf (effHeaders t)]? = some p.id)
    ∧ (∀ (k₁ k₂ : Nat) (r₁ r₂ : List String),
        (dataRows t)[k₁]? = some r₁ → (dataRows t)[k₂]? = some r₂ →
        ¬ (dataRows (write_personalization t p))[k₁]? = some r₁ →
        ¬ (dataRows (write_personalization t p))[k₂]? = some r₂ →
        k₁ = k₂) := by
  rw [dataRows_write]
  set c := idColOf (effHeaders t) with hc
  set d := dataRows t with hd
  cases upsertLoop_cases c p d with
  | inl hcase =>
    obtain ⟨he, hall⟩ := hcase
    rw [he]
    have hlen : (d ++ [rowData p]).length = d.length + 1 := by simp
    have hkeep : ∀ (k : Nat) (r : List String),
        d[k]? = some r → (d ++ [rowData p])[k]? = some r := by
      intro k r hk
      have hklt : k < d.length := by
        rcases List.getElem?_eq_some.mp hk with ⟨hlt, _⟩
        exact hlt
      rw [List.getElem?_append_left hklt]
      exact hk
    refine ⟨by omega, by omega, ?_, ?_, ?_⟩
    · intro k r hk _; exact hkeep k r hk
    · intro _; exact ⟨rfl, hall⟩
    · intro k₁ k₂ r₁ r₂ hk1 hk2 hne1 _
      exact absurd (hkeep k₁ r₁ hk1) hne1
  | inr hcase =>
    obtain ⟨k, r, hget, hmatch, he⟩ := hcase
    rw [he]
    have hlen : (d.set k (rowData p ++ r.drop 7)).length = d.length := by
      simp
    have hother : ∀ j, ¬ j = k → (d.set k (rowData p ++ r.drop 7))[j]? = d[j]? := by
      intro j hj
      exact List.getElem?_set_ne (fun hx => hj hx.symm)
    refine ⟨by omega, by omega, ?_, ?_, ?_⟩
    · intro k' r' hk' hne
      by_cases hkk : k' = k
      · subst hkk
        rw [hk'] at hget
        have : r' = r := Option.some.inj hget
        exact absurd (this ▸ hmatch) hne
      · rw [hother k' hkk]; exact hk'
    · intro hcontra; omega
    · intro k₁ k₂ r₁ r₂ hk1 hk2 hne1 hne2
      by_cases h1 : k₁ = k
      · by_cases h2 : k₂ = k
        · rw [h1, h2]
        · exact absurd (by rw [hother k₂ h2]; exact hk2) hne2
      · exact absurd (by rw [hother k₁ h1]; exact hk1) hne1

/-- Witness for C10: in a concrete table, the row whose identifier differs
from the upserted record's identifier is untouched by the call. -/
theorem upsert_frame_spec_witness :
    (dataRows (write_personalization [["ID"], ["B", "bb"], ["A", "aa"]]
      ⟨"A", "n", "o", "d", none, none, none⟩))[0]? = some ["B", "bb"] :=
  (upsert_frame_spec [["ID"], ["B", "bb"], ["A", "aa"]]
      ⟨"A", "n", "o", "d", none, none, none⟩).2.2.1 0 ["B", "bb"]
    (by decide) (by decide)

/-! ## Claim theorems: review fetching (C5, C8) -/

/-- Every block of a list of blocks of size `mR` contributes `mR` items to
the flattened stream. -/
theorem flatten_length_const (mR : Nat) :
    ∀ pre : List (List RawItem), (∀ b ∈ pre, b.length = mR) →
      pre.flatten.length = pre.length * mR
  | [], _ => by simp
  | b :: bs, h => by
    have hb : b.length = mR := h b (by simp)
    have ih := flatten_length_const mR bs (fun x hx => h x (by simp [hx]))
    simp only [List.flatten_cons, List.length_append, List.length_cons, hb, ih,
      Nat.succ_mul]
    omega

/-- C5: a successful fetch returns one review list per input identifier and
in input order (entry `i` is the `i`-th positional slice of the converted
stream), every list holds at most `maxReviews` items, and when the stream
carries `N > maxReviews` contiguous items for the identifier at position
`i` (all earlier identifiers contributing their full `maxReviews` items, the
contiguity assumption under which the code attributes stream items at all),
exactly the first `maxReviews` of them are retained for that identifier. -/
theorem fetch_reviews_partition_spec (placeIds : List String) (mR : Nat)
    (lang : String) (items : List RawItem) (runIn : ReviewsRunInput)
    (res : List (List Review))
    (hne : placeIds ≠ [])
    (hok : fetch_reviews placeIds mR lang items = .ok (runIn, res)) :
    res.length = placeIds.length
    ∧ (∀ l ∈ res, l.length ≤ mR)
    ∧ (∀ i : Nat, i < placeIds.length →
        res[i]? = some (((items.map itemToReview).drop (i * mR)).take mR))
    ∧ (∀ (pre : List (List RawItem)) (chunk rest : List RawItem),
        items = pre.flatten ++ (chunk ++ rest) →
        (∀ b ∈ pre, b.length = mR) →
        pre.length < placeIds.length →
        mR < chunk.length →
        res[pre.length]? = some ((chunk.take mR).map itemToReview)
        ∧ ((chunk.take mR).map itemToReview).length = mR) := by
  have hemp : placeIds.isEmpty = false := List.isEmpty_eq_false.mpr hne
  rw [fetch_reviews, hemp] at hok
  simp only [Bool.false_eq_true, if_false, Except.ok.injEq, Prod.mk.injEq] at hok
  have hres : res = (List.range placeIds.length).map
      (fun i => ((items.map itemToReview).drop (i * mR)).take mR) := hok.2.symm
  subst hres
  refine ⟨by simp, ?_, ?_, ?_⟩
  · intro l hl
    obtain ⟨i, _, rfl⟩ := List.mem_map.mp hl
    simp [List.length_take]
  · intro i hi
    rw [List.getElem?_map, List.getElem?_range hi, Option.map_some']
  · intro pre chunk rest hitems hpre hlen hN
    constructor
    · rw [List.getElem?_map, List.getElem?_range hlen, Option.map_some']
      have hjlen : ((pre.flatten).map itemToReview).length = pre.length * mR := by
        rw [List.length_map]; exact flatten_length_const mR pre hpre
      have hchunk : mR ≤ (chunk.map itemToReview).length := by
        simp [hN.le]
      rw [hitems, List.map_append, List.map_append, ← hjlen, List.drop_left,
        List.take_append_of_le_length hchunk, ← List.map_take]
    · rw [List.length_map, List.length_take]
      exact Nat.min_eq_left hN.le

/-- Witness for C5: two identifiers, cap 2, a stream of five items in which
the first identifier contributes two items and the second three (one over
the cap): the second identifier retains exactly its first two items. -/
theorem fetch_reviews_partition_spec_witness :
    ∃ res : List (List Review),
      fetch_reviews ["p1", "p2"] 2 "en"
          [⟨none, none, some "r1"⟩, ⟨none, none, some "r2"⟩,
           ⟨none, none, some "r3"⟩, ⟨none, none, some "r4"⟩,
           ⟨none, none, some "r5"⟩]
        = .ok (⟨["p1", "p2"], 2, "en"⟩, res)
      ∧ res.length = 2
      ∧ res[1]? = some ((([⟨none, none, some "r3"⟩, ⟨none, none, some "r4"⟩,
          ⟨none, none, some "r5"⟩] : List RawItem).take 2).map itemToReview) := by
  have h := fetch_reviews_partition_spec ["p1", "p2"] 2 "en"
    [⟨none, none, some "r1"⟩, ⟨none, none, some "r2"⟩,
     ⟨none, none, some "r3"⟩, ⟨none, none, some "r4"⟩,
     ⟨none, none, some "r5"⟩]
    ⟨["p1", "p2"], 2, "en"⟩
    [[itemToReview ⟨none, none, some "r1"⟩, itemToReview ⟨none, none, some "r2"⟩],
     [itemToReview ⟨none, none, some "r3"⟩, itemToReview ⟨none, none, some "r4"⟩]]
    (by decide) rfl
  refine ⟨_, rfl, h.1, ?_⟩
  exact (h.2.2.2 [[⟨none, none, some "r1"⟩, ⟨none, none, some "r2"⟩]]
    [⟨none, none, some "r3"⟩, ⟨none, none, some "r4"⟩, ⟨none, none, some "r5"⟩]
    [] rfl (by decide) (by decide) (by decide)).1

/-- C8: fetching with an empty identifier list fails with the
invalid-argument error before the remote run input is even assembled, and
with a non-empty identifier list this error is never raised (the call
reaches the remote stage and succeeds on its stream). -/
theorem fetch_reviews_empty_guard (placeIds : List String) (mR : Nat)
    (lang : String) (items : List RawItem) :
    (placeIds = [] → fetch_reviews placeIds mR lang items = .error .invalidArgument)
    ∧ (placeIds ≠ [] → ∃ runIn res,
        fetch_reviews placeIds mR lang items = .ok (runIn, res)) := by
  constructor
  · intro h; subst h; rfl
  · intro h
    cases placeIds with
    | nil => exact absurd rfl h
    | cons a as => exact ⟨_, _, rfl⟩

/-- Witness for C8: the empty batch errors, a singleton batch succeeds. -/
theorem fetch_reviews_empty_guard_witness :
    fetch_reviews [] 20 "en" [] = .error .invalidArgument
    ∧ ∃ runIn res, fetch_reviews ["a"] 20 "en" [] = .ok (runIn, res) :=
  ⟨(fetch_reviews_empty_guard [] 20 "en" []).1 rfl,
   (fetch_reviews_empty_guard ["a"] 20 "en" []).2 (by decide)⟩

/-! ## Claim theorems: summarisation (C6, C7) -/

/-- Enumerated snippets of a review list with all texts empty or absent are
empty, whatever the enumeration offset. -/
theorem filterMap_snippets_nil :
    ∀ (n : Nat) (l : List Review), (∀ r ∈ l, r.text.getD "" = "") →
      (List.enumFrom n l).filterMap snippetOf = []
  | _, [], _ => rfl
  | n, r :: rs, h => by
    have hr : r.text.getD "" = "" := h r (by simp)
    have ih := filterMap_snippets_nil (n + 1) rs (fun x hx => h x (by simp [hx]))
    simp [List.enumFrom_cons, List.filterMap_cons, snippetOf, hr, ih]

/-- C6: when every considered review (the first five) has empty or absent
text, summarisation returns the sentinel insight and the generation backend
is never called (the outcome is `sentinel`, not `modelCall`). -/
theorem summarize_all_empty_sentinel (reviews : List Review) (b : String)
    (h : ∀ r ∈ reviews.take 5, r.text.getD "" = "") :
    summarize_reviews reviews b
      = .sentinel ⟨"Unknown", "No reviews available"⟩ := by
  have hnil : reviewSnippets (reviews.take 5) = [] := by
    rw [reviewSnippets]
    exact filterMap_snippets_nil 0 (reviews.take 5) h
  simp [summarize_reviews, hnil]

/-- Witness for C6 on a concrete review list (one absent text, one empty
text). -/
theorem summarize_all_empty_sentinel_witness :
    summarize_reviews [⟨some "t", some "author", none⟩, ⟨none, none, some ""⟩]
        "Acme"
      = .sentinel ⟨"Unknown", "No reviews available"⟩ :=
  summarize_all_empty_sentinel
    [⟨some "t", some "author", none⟩, ⟨none, none, some ""⟩] "Acme" (by decide)

/-- C7: summarisation depends only on the first five reviews — the
truncation happens before the empty-text filtering, so reviews past the
fifth position can never contribute snippets to the generation prompt nor
change the outcome in any way. -/
theorem summarize_take_five (reviews : List Review) (b : String) :
    summarize_reviews reviews b = summarize_reviews (reviews.take 5) b := by
  simp [summarize_reviews, List.take_take]

/-! ## Claim theorems: pipeline (C1, C2, C9) -/

/-- Shared helper: when some leads were read, the pipeline's work queue is
the first `maxLeads` leads of the source table in original order. -/
theorem process_multiple_leads_eq_take (t : List (List String)) (m : Nat)
    (h : read_leads t ≠ []) :
    process_multiple_leads t m = .ok ((read_leads t).take m) := by
  rw [process_multiple_leads]
  simp only [List.isEmpty_eq_false.mpr h, Bool.false_eq_true, if_false]

/-- C9: an empty source table yields an empty lead sequence (not an error),
and a run over a table yielding no leads fails with the no-leads error. -/
theorem empty_table_no_leads :
    read_leads [] = []
    ∧ ∀ (t : List (List String)) (m : Nat),
        read_leads t = [] → process_multiple_leads t m = .error .noLeadsFound := by
  refine ⟨rfl, ?_⟩
  intro t m h
  rw [process_multiple_leads]
  simp [h]

/-- Witness for C9: the empty table and a header-only table. -/
theorem empty_table_no_leads_witness :
    read_leads [] = []
    ∧ process_multiple_leads [["id", "business"]] 5 = .error .noLeadsFound :=
  ⟨empty_table_no_leads.1, empty_table_no_leads.2 [["id", "business"]] 5 rfl⟩

/-- C1 counterexample: a source table with the single lead `"A"` and the
processed set `{"A"}`. The spec's dedup filter prescribes an empty work
queue, but the pipeline's work queue is the full lead list — no processed
set is read and no filtering happens, so the already-processed lead is
reprocessed. -/
theorem pipeline_queue_ignores_processed_cex :
    process_multiple_leads [["id"], ["A"]] 5 = .ok (read_leads [["id"], ["A"]])
    ∧ read_leads [["id"], ["A"]] ≠ []
    ∧ specWorkQueue (read_leads [["id"], ["A"]]) ["A"] = []
    ∧ process_multiple_leads [["id"], ["A"]] 5
        ≠ .ok (specWorkQueue (read_leads [["id"], ["A"]]) ["A"]) := by
  refine ⟨?_, ?_, ?_, ?_⟩ <;> decide

/-- C1 (amended): the pipeline's work queue is the first `maxLeads` leads
of the source table in original order; no dedup against a
processed-identifier set is performed (the code reads no such set), so
leads with a null identifier or an already-processed identifier are not
excluded. -/
theorem pipeline_queue_take (t : List (List String)) (m : Nat)
    (h : read_leads t ≠ []) :
    process_multiple_leads t m = .ok ((read_leads t).take m) :=
  process_multiple_leads_eq_take t m h

/-- Witness for the amended C1. -/
theorem pipeline_queue_take_witness :
    process_multiple_leads [["id"], ["A"], ["B"]] 1
      = .ok ((read_leads [["id"], ["A"], ["B"]]).take 1) :=
  pipeline_queue_take [["id"], ["A"], ["B"]] 1 (by decide)

/-- C2 counterexample: with six leads in the source table, a run with the
declared default cap processes only the first five — the default is 5, not
unbounded. -/
theorem default_cap_not_unbounded_cex :
    (read_leads [["id"], ["1"], ["2"], ["3"], ["4"], ["5"], ["6"]]).length = 6
    ∧ process_multiple_leads_default [["id"], ["1"], ["2"], ["3"], ["4"], ["5"], ["6"]]
        = .ok ((read_leads [["id"], ["1"], ["2"], ["3"], ["4"], ["5"], ["6"]]).take 5)
    ∧ ((read_leads [["id"], ["1"], ["2"], ["3"], ["4"], ["5"], ["6"]]).take 5).length = 5
    ∧ process_multiple_leads_default [["id"], ["1"], ["2"], ["3"], ["4"], ["5"], ["6"]]
        ≠ .ok (read_leads [["id"], ["1"], ["2"], ["3"], ["4"], ["5"], ["6"]]) := by
  refine ⟨?_, ?_, ?_, ?_⟩ <;> decide

/-- C2 (amended): the cap is not optional-unbounded — `max_leads` defaults
to 5 (and `main` invokes the run with 5), so a default run processes
exactly the first `min 5 N` of the `N` leads, never more than five. -/
theorem default_cap_five (t : List (List String)) (h : read_leads t ≠ []) :
    process_multiple_leads_default t = .ok ((read_leads t).take 5)
    ∧ defaultMaxLeads = 5
    ∧ ((read_leads t).take 5).length ≤ 5 := by
  refine ⟨process_multiple_leads_eq_take t 5 h, rfl, ?_⟩
  simp [List.length_take]

/-- Witness for the amended C2. -/
theorem default_cap_five_witness :
    process_multiple_leads_default [["id"], ["A"]]
      = .ok ((read_leads [["id"], ["A"]]).take 5)
    ∧ defaultMaxLeads = 5
    ∧ ((read_leads [["id"], ["A"]]).take 5).length ≤ 5 :=
  default_cap_five [["id"], ["A"]] (by decide)
